import Mathlib

set_option linter.unusedVariables false

/-!
Shallow embedding of the `wasmer` package of `go-ext-wasm` (the files
`instance.go` and `instance_helpers.go`). The external WebAssembly engine is
reachable only through the `cWasmer…` foreign primitives; it is modelled as an
explicit `EngineState` that the primitives act on, with handles drawn from a
fresh counter and with the observable interactions (allocations, destructions,
export-table reads, calls) recorded so that theorems can speak about them.
Repository code that is not part of the source set (`imports.go`, `value.go`,
`memory.go` and the bridge helpers called by the exported-function wrapper) is
modelled from the specification; every such definition carries a doc comment
starting with "Modelled from the spec".
-/

namespace Wasmer

/-- ValueTag is the WebAssembly value kind tag (the `cWasmerValueTag` side of
the four numeric WebAssembly types). -/
inductive ValueTag where
  | I32
  | I64
  | F32
  | F64
deriving DecidableEq

/-- Modelled from the spec: `Value` (value.go is not part of the source set) is
a tagged union of the four numeric WebAssembly kinds plus the designated void
sentinel returned by `void()`. Float payloads are carried as raw bit patterns
so that no floating-point arithmetic enters the model. -/
inductive Value where
  | I32 (v : Int)
  | I64 (v : Int)
  | F32 (bits : Nat)
  | F64 (bits : Nat)
  | Void
deriving DecidableEq

/-- Modelled from the spec: `void()` is the designated void `Value` sentinel
returned when an exported function has output arity zero. -/
def void : Value := Value.Void

/-- GoError models the Go `error` values this package produces.
`instanceError` embeds `InstanceError` (a bare message),
`exportedFunctionError` embeds `ExportedFunctionError` (function name plus
message template), `plainError` embeds an `errors.New` value. The remaining
constructors are structured forms of the errors produced by bridge helpers
that are modelled from the spec (their exact message strings are not in the
source set): `arityMismatch` names the function and both argument counts,
`conversionError` names the function, the argument position and the offending
host type, and `signatureError` / `outputArityError` stand for the
signature-retrieval failures of an exported function. -/
inductive GoError where
  | instanceError (message : String)
  | exportedFunctionError (functionName : String) (message : String)
  | plainError (message : String)
  | arityMismatch (functionName : String) (expected : Nat) (given : Nat)
  | conversionError (functionName : String) (position : Nat) (typeName : String)
  | signatureError (functionName : String)
  | outputArityError (functionName : String)
deriving DecidableEq

/-- ExportKind classifies one entry of the engine's export table as reported
by `cWasmerExportKind`: function, memory, or anything else. -/
inductive ExportKind where
  | function
  | memory
  | other
deriving DecidableEq

/-- ExportEntry is one record of the engine's export table as observed through
the `cWasmer…` export primitives: its kind and name, whether
`cWasmerExportToMemory` succeeds and the memory handle it then yields, and the
function-signature data of a function export (the retrieval of the input
signature succeeds iff `sigOk`, the retrieval of the output arity succeeds iff
`outOk`). -/
structure ExportEntry where
  kind : ExportKind
  name : String
  memOk : Bool
  memHandle : Nat
  sigOk : Bool
  inputSig : List ValueTag
  outOk : Bool
  outputArity : Nat
deriving DecidableEq

/-- ImportFunction mirrors the per-import record of the registry (imports.go
is not part of the source set; the fields are exactly the ones
`generateWasmerImports` reads and writes): the namespace, the host callback
pointer, the input and output signatures, and the foreign function handle
stored at materialization time (`importedFunctionPointer`, nil before the
first materialization). -/
structure ImportFunction where
  «namespace» : String
  cgoPointer : Nat
  wasmInputs : List ValueTag
  wasmOutputs : List ValueTag
  importedFunctionPointer : Option Nat
deriving DecidableEq

/-- Imports mirrors the registry: namespaces mapping import names to
`ImportFunction` records, modelled as nested association lists (Go map
iteration order is arbitrary; the model fixes the list order). -/
structure Imports where
  imports : List (String × List (String × ImportFunction))
deriving DecidableEq

/-- Modelled from the spec: `NewImports` (imports.go is not part of the source
set) constructs an empty registry. -/
def NewImports : Imports := ⟨[]⟩

/-- Modelled from the spec: `Imports.Count` is the total number of
registered import functions across all namespaces. -/
def Imports.Count (imports : Imports) : Nat :=
  (imports.imports.map (fun ns => ns.2.length)).sum

/-- cWasmerImportT is the flat engine-ready import record built by
`cNewWasmerImportT`: namespace, import name and the foreign function handle. -/
structure cWasmerImportT where
  «namespace» : String
  importName : String
  funcHandle : Nat
deriving DecidableEq

/-- cNewWasmerImportT builds one flat import record. -/
def cNewWasmerImportT (ns importName : String) (funcHandle : Nat) : cWasmerImportT :=
  ⟨ns, importName, funcHandle⟩

/-- Modelled from the spec: `Memory` (memory.go is not part of the source set)
wraps the engine's memory export handle; the zero value of the struct holds a
nil handle. -/
structure Memory where
  memory : Option Nat
deriving DecidableEq

/-- newMemory wraps a concrete engine memory handle. -/
def newMemory (h : Nat) : Memory := ⟨some h⟩

/-- EngineState is the explicit state of the external WebAssembly engine that
the `cWasmer…` foreign primitives act on. Handles are numbers drawn from
`nextHandle`; `liveInstances` and `liveImports` track the instance handles and
the import-function handles currently allocated, and destroying a handle that
is not live sets the sticky `faulted` flag (the model of a double-free fault).
`points` is the per-instance metering counter table, `lastError` the
thread-local last-error slot (`none` when unavailable). `instantiateSucceeds`
and `newImportObjectSucceeds` are the engine's verdicts for the corresponding
primitives, `exportsOf` gives the export table of each instance handle, and
`callBehavior` the outputs and status the engine produces for a call.
`exportsRetrieveCount`, `exportsGetLog`, `callLog` and `destroyLog` record the
observable interactions that the theorems speak about. -/
structure EngineState where
  nextHandle : Nat
  liveInstances : List Nat
  liveImports : List Nat
  points : List (Nat × Nat)
  lastError : Option String
  instantiateSucceeds : Bool
  newImportObjectSucceeds : Bool
  exportsOf : Nat → List ExportEntry
  callBehavior : Nat → String → List Value → List Value × Bool
  exportsRetrieveCount : Nat
  exportsGetLog : List Nat
  callLog : List (Nat × String)
  destroyLog : List Nat
  faulted : Bool

/-- cWasmerImportFuncNew allocates a fresh foreign import-function handle; the
host callback pointer and the two signatures are passed through to the engine
and do not influence the allocation. -/
def cWasmerImportFuncNew (cgoPointer : Nat) (inputs outputs : List ValueTag)
    (s : EngineState) : Nat × EngineState :=
  (s.nextHandle,
    {s with nextHandle := s.nextHandle + 1, liveImports := s.liveImports ++ [s.nextHandle]})

/-- cWasmerImportFuncDestroy releases an import-function handle; destroying a
handle that is not live is a fault. -/
def cWasmerImportFuncDestroy (h : Nat) (s : EngineState) : EngineState :=
  if h ∈ s.liveImports then {s with liveImports := s.liveImports.erase h}
  else {s with faulted := true}

/-- cWasmerInstanceDestroy releases an engine instance handle, recording the
destruction; destroying a handle that is not live is a fault. -/
def cWasmerInstanceDestroy (h : Nat) (s : EngineState) : EngineState :=
  if h ∈ s.liveInstances then
    {s with liveInstances := s.liveInstances.erase h, destroyLog := s.destroyLog ++ [h]}
  else {s with destroyLog := s.destroyLog ++ [h], faulted := true}

/-- setPoints updates the per-instance points table at one handle. -/
def setPoints (h v : Nat) : List (Nat × Nat) → List (Nat × Nat)
  | [] => [(h, v)]
  | (k, w) :: rest => if k = h then (k, v) :: rest else (k, w) :: setPoints h v rest

/-- getPoints reads the per-instance points table (0 when the handle is
absent). -/
def getPoints (h : Nat) : List (Nat × Nat) → Nat
  | [] => 0
  | (k, w) :: rest => if k = h then w else getPoints h rest

/-- cWasmerInstanceSetPointsUsed stores a 64-bit points value on an instance
handle; the Go argument is a `uint64`, modelled by reducing modulo `2 ^ 64`.
The Go code can pass a nil instance pointer, in which case the engine-defined
behaviour is left unmodelled as a no-op. -/
def cWasmerInstanceSetPointsUsed (h : Option Nat) (v : Nat) (s : EngineState) : EngineState :=
  match h with
  | some h => {s with points := setPoints h (v % 2 ^ 64) s.points}
  | none => s

/-- cWasmerInstanceGetPointsUsed reads the points counter of an instance
handle (0 for a nil pointer, standing for engine-defined behaviour). -/
def cWasmerInstanceGetPointsUsed (h : Option Nat) (s : EngineState) : Nat :=
  match h with
  | some h => getPoints h s.points
  | none => 0

/-- cWasmerInstantiate asks the engine to instantiate module bytes against a
flat import table: on success a fresh instance handle is allocated, on failure
no handle is produced (the last-error slot of the engine configuration already
holds the detail the failing call leaves behind). -/
def cWasmerInstantiate (bytes : List Nat) (imports : List cWasmerImportT)
    (numberOfImports : Nat) (s : EngineState) : Option Nat × EngineState :=
  if s.instantiateSucceeds then
    (some s.nextHandle,
      {s with nextHandle := s.nextHandle + 1, liveInstances := s.liveInstances ++ [s.nextHandle]})
  else (none, s)

/-- cWasmerInstantiateWithMetering is the metered variant of the instantiate
primitive; the gas limit and the opcode-cost table are passed through to the
engine. -/
def cWasmerInstantiateWithMetering (bytes : List Nat) (imports : List cWasmerImportT)
    (numberOfImports : Nat) (gasLimit : Nat) (opcode_costs : List Nat)
    (s : EngineState) : Option Nat × EngineState :=
  if s.instantiateSucceeds then
    (some s.nextHandle,
      {s with nextHandle := s.nextHandle + 1, liveInstances := s.liveInstances ++ [s.nextHandle]})
  else (none, s)

/-- cWasmerInstantiateWithMeteringAndImportObject instantiates against a
pre-materialized import-object handle instead of a flat import table. -/
def cWasmerInstantiateWithMeteringAndImportObject (bytes : List Nat)
    (importObjectHandle : Option Nat) (gasLimit : Nat) (opcode_costs : List Nat)
    (s : EngineState) : Option Nat × EngineState :=
  if s.instantiateSucceeds then
    (some s.nextHandle,
      {s with nextHandle := s.nextHandle + 1, liveInstances := s.liveInstances ++ [s.nextHandle]})
  else (none, s)

/-- cWasmerNewImportObjectFromImports builds an engine import object from a
flat import table, allocating a handle for it on success. -/
def cWasmerNewImportObjectFromImports (imports : List cWasmerImportT)
    (numberOfImports : Nat) (s : EngineState) : Option Nat × EngineState :=
  if s.newImportObjectSucceeds then
    (some s.nextHandle, {s with nextHandle := s.nextHandle + 1})
  else (none, s)

/-- cWasmerInstanceExports retrieves the export table of an instance handle,
counting the retrieval. -/
def cWasmerInstanceExports (h : Nat) (s : EngineState) : List ExportEntry × EngineState :=
  (s.exportsOf h, {s with exportsRetrieveCount := s.exportsRetrieveCount + 1})

/-- logExportsGet records one `cWasmerExportsGet` fetch of the export-table
entry at an index. -/
def logExportsGet (i : Nat) (s : EngineState) : EngineState :=
  {s with exportsGetLog := s.exportsGetLog ++ [i]}

/-- GetLastError reads the engine's thread-local last-error slot; `none`
models the case where the retrieval itself fails. -/
def GetLastError (s : EngineState) : Option String := s.lastError

/-- generateWasmerImportsInner is the inner loop of `generateWasmerImports`
over the imports of one namespace: for every import function it creates a
foreign function handle with `cWasmerImportFuncNew` (unconditionally, with no
check of a previously stored handle), assigns it to
`importedFunctionPointer`, and emits the flat record built by
`cNewWasmerImportT`. It returns the records, the import list with the updated
function records, and the engine state. -/
def generateWasmerImportsInner :
    List (String × ImportFunction) → EngineState →
      List cWasmerImportT × List (String × ImportFunction) × EngineState
  | [], s => ([], [], s)
  | (importName, importFunction) :: rest, s =>
    let allocated := cWasmerImportFuncNew importFunction.cgoPointer
      importFunction.wasmInputs importFunction.wasmOutputs s
    let updatedFunction := {importFunction with importedFunctionPointer := some allocated.1}
    let importedFunction := cNewWasmerImportT importFunction.«namespace» importName allocated.1
    let tail := generateWasmerImportsInner rest allocated.2
    (importedFunction :: tail.1, (importName, updatedFunction) :: tail.2.1, tail.2.2)

/-- generateWasmerImportsOuter is the outer loop of `generateWasmerImports`
over the namespaces of the registry. -/
def generateWasmerImportsOuter :
    List (String × List (String × ImportFunction)) → EngineState →
      List cWasmerImportT × List (String × List (String × ImportFunction)) × EngineState
  | [], s => ([], [], s)
  | (ns, namespacedImports) :: rest, s =>
    let inner := generateWasmerImportsInner namespacedImports s
    let tail := generateWasmerImportsOuter rest inner.2.2
    (inner.1 ++ tail.1, (ns, inner.2.1) :: tail.2.1, tail.2.2)

/-- generateWasmerImports materializes an import registry into the flat table
the engine expects, returning the flat records, the registry carrying the
freshly stored function handles, the number of imports, and the engine
state. -/
def generateWasmerImports (imports : Imports) (s : EngineState) :
    List cWasmerImportT × Imports × Nat × EngineState :=
  let result := generateWasmerImportsOuter imports.imports s
  (result.1, ⟨result.2.1⟩, imports.Count, result.2.2)

/-- closeImportsInner releases the materialized handles of one namespace:
every non-nil `importedFunctionPointer` is destroyed and forgotten. -/
def closeImportsInner :
    List (String × ImportFunction) → EngineState →
      List (String × ImportFunction) × EngineState
  | [], s => ([], s)
  | (importName, importFunction) :: rest, s =>
    let step :=
      match importFunction.importedFunctionPointer with
      | some h =>
        ({importFunction with importedFunctionPointer := none}, cWasmerImportFuncDestroy h s)
      | none => (importFunction, s)
    let tail := closeImportsInner rest step.2
    ((importName, step.1) :: tail.1, tail.2)

/-- closeImportsOuter iterates `closeImportsInner` over all namespaces. -/
def closeImportsOuter :
    List (String × List (String × ImportFunction)) → EngineState →
      List (String × List (String × ImportFunction)) × EngineState
  | [], s => ([], s)
  | (ns, namespacedImports) :: rest, s =>
    let inner := closeImportsInner namespacedImports s
    let tail := closeImportsOuter rest inner.2
    ((ns, inner.1) :: tail.1, tail.2)

/-- Modelled from the spec: `Imports.Close` (imports.go is not part of the
source set) releases all materialized foreign function handles owned by the
registry and forgets them, which makes the close idempotent as the spec
requires; it returns the updated registry, standing for the mutation of the
shared Go value through its pointer. -/
def Imports.Close (imports : Imports) (s : EngineState) : Imports × EngineState :=
  let result := closeImportsOuter imports.imports s
  (⟨result.1⟩, result.2)

/-- HostValue models the untyped variadic arguments a host passes to an
exported function (modelled from the spec, since the bridge helpers are not
part of the source set): a host integer, a float of either width carried as
raw bits, an explicit `Value`, or an unsupported host type carrying its Go
type name. -/
inductive HostValue where
  | int (v : Int)
  | f32 (bits : Nat)
  | f64 (bits : Nat)
  | value (v : Value)
  | unsupported (typeName : String)
deriving DecidableEq

/-- hostTypeName renders the Go-level type of a host argument, used in
conversion error reports. -/
def hostTypeName : HostValue → String
  | HostValue.int _ => "int"
  | HostValue.f32 _ => "float32"
  | HostValue.f64 _ => "float64"
  | HostValue.value _ => "wasmer.Value"
  | HostValue.unsupported typeName => typeName

/-- Modelled from the spec: conversion of one host argument to the Value kind
declared at its position. Integer hosts fill the two integer kinds, float
hosts their exact kind, an explicit `Value` is coerced as given, anything
else is rejected. -/
def convertHostValue : HostValue → ValueTag → Option Value
  | HostValue.int v, ValueTag.I32 => some (Value.I32 v)
  | HostValue.int v, ValueTag.I64 => some (Value.I64 v)
  | HostValue.f32 bits, ValueTag.F32 => some (Value.F32 bits)
  | HostValue.f64 bits, ValueTag.F64 => some (Value.F64 bits)
  | HostValue.value v, _ => some v
  | _, _ => none

/-- Modelled from the spec: `validateGivenArguments` (not part of the source
set) checks that the number of given arguments equals the declared input
arity, failing with an error that names the function and both counts. -/
def validateGivenArguments (exportedFunctionName : String) (arguments : List HostValue)
    (wasmFunctionInputsArity : Nat) : Option GoError :=
  if arguments.length = wasmFunctionInputsArity then none
  else some (GoError.arityMismatch exportedFunctionName wasmFunctionInputsArity arguments.length)

/-- createWasmInputsLoop converts the host arguments position by position
against the declared input signature. -/
def createWasmInputsLoop (exportedFunctionName : String) :
    Nat → List HostValue → List ValueTag → Except GoError (List Value)
  | _, [], _ => Except.ok []
  | position, argument :: _, [] =>
    Except.error (GoError.conversionError exportedFunctionName position (hostTypeName argument))
  | position, argument :: arguments, tag :: tags =>
    match convertHostValue argument tag with
    | none =>
      Except.error (GoError.conversionError exportedFunctionName position (hostTypeName argument))
    | some v =>
      match createWasmInputsLoop exportedFunctionName (position + 1) arguments tags with
      | Except.error err => Except.error err
      | Except.ok vs => Except.ok (v :: vs)

/-- Modelled from the spec: `createWasmInputsFromArguments` (not part of the
source set) converts the host arguments to the declared input signature,
failing with an error naming the function, the position and the offending
type. -/
def createWasmInputsFromArguments (arguments : List HostValue) (arity : Nat)
    (signature : List ValueTag) (exportedFunctionName : String) :
    Except GoError (List Value) :=
  createWasmInputsLoop exportedFunctionName 0 arguments signature

/-- callWasmFunction invokes the engine call primitive for an exported
function (modelled from the spec's engine interface, since the helper is not
part of the source set): the call is recorded in the engine's `callLog` and
the outputs and status come from the engine's `callBehavior`. -/
def callWasmFunction (c_instance : Nat) (exportedFunctionName : String)
    (wasmFunctionInputsArity wasmFunctionOutputsArity : Nat) (wasmInputs : List Value)
    (s : EngineState) : List Value × Bool × EngineState :=
  let outcome := s.callBehavior c_instance exportedFunctionName wasmInputs
  (outcome.1, outcome.2,
    {s with callLog := s.callLog ++ [(c_instance, exportedFunctionName)]})

/-- Modelled from the spec: `convertWasmOutputToValue` (not part of the source
set) turns the engine output into a `Value` when the output arity is one and
into the void sentinel when it is zero. -/
def convertWasmOutputToValue (wasmFunctionOutputsArity : Nat) (wasmOutputs : List Value)
    (exportedFunctionName : String) : Value × Option GoError :=
  if wasmFunctionOutputsArity = 1 then
    match wasmOutputs.head? with
    | some v => (v, none)
    | none => (void, none)
  else (void, none)

/-- Modelled from the spec: `getExportedFunctionSignature` (not part of the
source set) reads the input value-kind signature and the input arity of an
exported function; it fails when the engine cannot deliver the signature. -/
def getExportedFunctionSignature (e : ExportEntry) (exportedFunctionName : String) :
    Except GoError (List ValueTag × Nat) :=
  if e.sigOk then Except.ok (e.inputSig, e.inputSig.length)
  else Except.error (GoError.signatureError exportedFunctionName)

/-- Modelled from the spec: `getExportedFunctionOutputArity` (not part of the
source set) reads the output arity of an exported function. -/
def getExportedFunctionOutputArity (e : ExportEntry) (exportedFunctionName : String) :
    Except GoError Nat :=
  if e.outOk then Except.ok e.outputArity
  else Except.error (GoError.outputArityError exportedFunctionName)

/-- ExportedFunctionWrapper is the closure state captured by
`createExportedFunctionWrapper`: the instance handle, the exported function
name, the declared input signature and arity, and the output arity. -/
structure ExportedFunctionWrapper where
  c_instance : Nat
  exportedFunctionName : String
  wasmFunctionInputSignatures : List ValueTag
  wasmFunctionInputsArity : Nat
  wasmFunctionOutputsArity : Nat
deriving DecidableEq

/-- createExportedFunctionWrapper builds the wrapper for one function export:
it retrieves the input signature with its arity and the output arity, failing
fast on either, and captures them together with the instance handle and the
function name. -/
def createExportedFunctionWrapper (c_instance : Nat) (e : ExportEntry)
    (exportedFunctionName : String) : Except GoError ExportedFunctionWrapper :=
  match getExportedFunctionSignature e exportedFunctionName with
  | Except.error err => Except.error err
  | Except.ok sig =>
    match getExportedFunctionOutputArity e exportedFunctionName with
    | Except.error err => Except.error err
    | Except.ok outArity =>
      Except.ok ⟨c_instance, exportedFunctionName, sig.1, sig.2, outArity⟩

/-- ExportedFunctionWrapper.call is the body of the variadic closure built by
`createExportedFunctionWrapper`: validate the argument count, convert the
arguments, call the engine, and convert the output; a failing validation or
conversion returns before the engine call primitive is reached. -/
def ExportedFunctionWrapper.call (w : ExportedFunctionWrapper)
    (arguments : List HostValue) (s : EngineState) :
    (Value × Option GoError) × EngineState :=
  match validateGivenArguments w.exportedFunctionName arguments w.wasmFunctionInputsArity with
  | some err => ((void, some err), s)
  | none =>
    match createWasmInputsFromArguments arguments w.wasmFunctionInputsArity
        w.wasmFunctionInputSignatures w.exportedFunctionName with
    | Except.error err => ((void, some err), s)
    | Except.ok wasmInputs =>
      let outcome := callWasmFunction w.c_instance w.exportedFunctionName
        w.wasmFunctionInputsArity w.wasmFunctionOutputsArity wasmInputs s
      if outcome.2.1 then
        (convertWasmOutputToValue w.wasmFunctionOutputsArity outcome.1 w.exportedFunctionName,
          outcome.2.2)
      else
        ((void, some (GoError.exportedFunctionError w.exportedFunctionName
          "Failed to call the `%s` exported function.")), outcome.2.2)

/-- setExport models the Go map assignment on the exports map: overwrite the
binding when the name is present, append it otherwise. -/
def setExport : List (String × ExportedFunctionWrapper) → String →
    ExportedFunctionWrapper → List (String × ExportedFunctionWrapper)
  | [], name, w => [(name, w)]
  | (n, v) :: rest, name, w =>
    if n = name then (n, w) :: rest else (n, v) :: setExport rest name w

/-- retrieveExportedFunctionsLoop walks the export table from index `i`
onwards (the Go index loop over `cWasmerExportsGet` is modelled structurally
on the remaining entries, logging each fetched index): non-function exports
are skipped, each function export gets a wrapper stored under its name, and a
wrapper-creation failure aborts the walk with a nil map and the error. -/
def retrieveExportedFunctionsLoop (c_instance : Nat) :
    List ExportEntry → Nat → List (String × ExportedFunctionWrapper) → EngineState →
      (Option (List (String × ExportedFunctionWrapper)) × Option GoError) × EngineState
  | [], _, exports, s => ((some exports, none), s)
  | e :: rest, i, exports, s =>
    let s1 := logExportsGet i s
    if e.kind = ExportKind.function then
      match createExportedFunctionWrapper c_instance e e.name with
      | Except.error err => ((none, some err), s1)
      | Except.ok w =>
        retrieveExportedFunctionsLoop c_instance rest (i + 1) (setExport exports e.name w) s1
    else retrieveExportedFunctionsLoop c_instance rest (i + 1) exports s1

/-- retrieveExportedFunctions walks the whole export table once, building the
name-indexed wrapper map, as the source loop over `cWasmerExportsLen` indices
does. -/
def retrieveExportedFunctions (c_instance : Nat) (wasmExports : List ExportEntry)
    (s : EngineState) :
    (Option (List (String × ExportedFunctionWrapper)) × Option GoError) × EngineState :=
  retrieveExportedFunctionsLoop c_instance wasmExports 0 [] s

/-- retrieveExportedMemoryLoop walks the export table from index `i` onwards
(the Go index loop is modelled structurally on the remaining entries, logging
each fetched index): every memory export overwrites the accumulator, so the
last one wins; a failing `cWasmerExportToMemory` aborts with an
`InstanceError`. -/
def retrieveExportedMemoryLoop :
    List ExportEntry → Nat → Memory → Bool → EngineState →
      (Memory × Bool × Option GoError) × EngineState
  | [], _, memory, hasMemory, s => ((memory, hasMemory, none), s)
  | e :: rest, i, memory, hasMemory, s =>
    let s1 := logExportsGet i s
    if e.kind = ExportKind.memory then
      if e.memOk then retrieveExportedMemoryLoop rest (i + 1) (newMemory e.memHandle) true s1
      else ((⟨none⟩, false,
        some (GoError.instanceError "Failed to extract the exported memory.")), s1)
    else retrieveExportedMemoryLoop rest (i + 1) memory hasMemory s1

/-- retrieveExportedMemory walks the whole export table once, starting from
the zero-valued `Memory` and a false `hasMemory` flag, as the source does. -/
def retrieveExportedMemory (wasmExports : List ExportEntry) (s : EngineState) :
    (Memory × Bool × Option GoError) × EngineState :=
  retrieveExportedMemoryLoop wasmExports 0 ⟨none⟩ false s

/-- Instance mirrors the Go `Instance` struct: the engine instance handle, the
imports pointer set at construction, the name-indexed exported function map
(nil on the error paths), and the optional exported memory. -/
structure Instance where
  «instance» : Option Nat
  imports : Option Imports
  Exports : Option (List (String × ExportedFunctionWrapper))
  Memory : Option Memory
deriving DecidableEq

/-- emptyInstance is the all-nil instance the source returns on every failure
path. -/
def emptyInstance : Instance := ⟨none, none, none, none⟩

/-- newInstanceWithImports is the shared post-instantiation step: retrieve the
export table once, collect the exported functions, then the exported memory,
and assemble the `Instance`; either retrieval error yields the empty instance
with that error. -/
def newInstanceWithImports (c_instance : Nat) (imports : Option Imports)
    (s : EngineState) : (Instance × Option GoError) × EngineState :=
  let retrieved := cWasmerInstanceExports c_instance s
  match retrieveExportedFunctions c_instance retrieved.1 retrieved.2 with
  | ((_, some err), s2) => ((emptyInstance, some err), s2)
  | ((exportsOpt, none), s2) =>
    match retrieveExportedMemory retrieved.1 s2 with
    | ((_, _, some err), s3) => ((emptyInstance, some err), s3)
    | ((memory, hasMemory, none), s3) =>
      if hasMemory = false then
        ((⟨some c_instance, imports, exportsOpt, none⟩, none), s3)
      else
        ((⟨some c_instance, imports, exportsOpt, some memory⟩, none), s3)

/-- instantiationErrorMessage is the failure message the three constructors
format identically: the fixed prefix applied by `fmt.Sprintf` to the engine's
last error, or to the placeholder when `GetLastError` fails. -/
def instantiationErrorMessage (s : EngineState) : String :=
  "Failed to instantiate the module:\n    " ++
    match GetLastError s with
    | some lastError => lastError
    | none => "(unknown details)"

/-- OPCODE_COUNT is the total recognized opcode count. -/
def OPCODE_COUNT : Nat := 410

/-- NewInstanceWithImports mirrors the source constructor: materialize the
imports, instantiate through the engine (`none` models the Go panic on
`&bytes[0]` when the byte slice is empty), and on engine failure return the
empty instance with an `InstanceError` built by `instantiationErrorMessage`;
on success run the shared post-instantiation step. -/
def NewInstanceWithImports (bytes : List Nat) (imports : Imports) (s : EngineState) :
    Option ((Instance × Option GoError) × EngineState) :=
  let generated := generateWasmerImports imports s
  if bytes.isEmpty then none
  else
    match cWasmerInstantiate bytes generated.1 generated.2.2.1 generated.2.2.2 with
    | (none, s2) =>
      some ((emptyInstance, some (GoError.instanceError (instantiationErrorMessage s2))), s2)
    | (some c_instance, s2) => some (newInstanceWithImports c_instance (some generated.2.1) s2)

/-- NewInstance constructs a new `Instance` with no imported functions by
delegating to `NewInstanceWithImports` with a fresh empty registry. -/
def NewInstance (bytes : List Nat) (s : EngineState) :
    Option ((Instance × Option GoError) × EngineState) :=
  NewInstanceWithImports bytes NewImports s

/-- NewMeteredInstanceWithImports mirrors the metered constructor, which
differs from `NewInstanceWithImports` only in the engine primitive invoked
and the gas limit and opcode-cost table passed through. -/
def NewMeteredInstanceWithImports (bytes : List Nat) (imports : Imports)
    (gasLimit : Nat) (opcode_costs : List Nat) (s : EngineState) :
    Option ((Instance × Option GoError) × EngineState) :=
  let generated := generateWasmerImports imports s
  if bytes.isEmpty then none
  else
    match cWasmerInstantiateWithMetering bytes generated.1 generated.2.2.1 gasLimit
        opcode_costs generated.2.2.2 with
    | (none, s2) =>
      some ((emptyInstance, some (GoError.instanceError (instantiationErrorMessage s2))), s2)
    | (some c_instance, s2) => some (newInstanceWithImports c_instance (some generated.2.1) s2)

/-- ImportObject mirrors the Go struct: the imports it was built from and the
engine import-object handle. -/
structure ImportObject where
  imports : Option Imports
  c_import_object : Option Nat
deriving DecidableEq

/-- NewImportObject materializes a registry once and asks the engine for a
reusable import object; on engine failure it returns the empty import object
and a plain error with the engine detail or the placeholder. -/
def NewImportObject (imports : Imports) (s : EngineState) :
    (ImportObject × Option GoError) × EngineState :=
  let generated := generateWasmerImports imports s
  match cWasmerNewImportObjectFromImports generated.1 generated.2.2.1 generated.2.2.2 with
  | (none, s2) =>
    let errorMessage := "Failed to create cached imports: " ++
      match GetLastError s2 with
      | some lastError => lastError
      | none => "(unknown details)"
    ((⟨none, none⟩, some (GoError.plainError errorMessage)), s2)
  | (some c_import_object, s2) =>
    ((⟨some generated.2.1, some c_import_object⟩, none), s2)

/-- NewMeteredInstanceWithImportObject mirrors the source constructor: it does
not re-materialize imports but instantiates against the import-object handle,
and on success runs the shared post-instantiation step with the
ImportObject's own imports pointer, which the resulting `Instance` stores. -/
def NewMeteredInstanceWithImportObject (bytes : List Nat) (importObject : ImportObject)
    (gasLimit : Nat) (opcode_costs : List Nat) (s : EngineState) :
    Option ((Instance × Option GoError) × EngineState) :=
  if bytes.isEmpty then none
  else
    match cWasmerInstantiateWithMeteringAndImportObject bytes importObject.c_import_object
        gasLimit opcode_costs s with
    | (none, s1) =>
      some ((emptyInstance, some (GoError.instanceError (instantiationErrorMessage s1))), s1)
    | (some c_instance, s1) => some (newInstanceWithImports c_instance importObject.imports s1)

/-- Instance.HasMemory checks whether the instance has an exported memory; the
source tests `nil != instance.Memory`. -/
def Instance.HasMemory (inst : Instance) : Bool := inst.Memory.isSome

/-- Instance.Close mirrors the source: close the imports when the imports
pointer is non-nil, then destroy the engine instance handle when it is
non-nil. Neither field of the Go struct is reset; the returned `Instance`
only reflects the mutation of the shared `Imports` value through its
pointer. -/
def Instance.Close (inst : Instance) (s : EngineState) : Instance × EngineState :=
  let closedImports :=
    match inst.imports with
    | some imports =>
      let closed := Imports.Close imports s
      (some closed.1, closed.2)
    | none => (none, s)
  let s2 :=
    match inst.«instance» with
    | some h => cWasmerInstanceDestroy h closedImports.2
    | none => closedImports.2
  ({inst with imports := closedImports.1}, s2)

/-- Instance.Clean mirrors the source: destroy only the engine instance handle
when it is non-nil; the imports are untouched. -/
def Instance.Clean (inst : Instance) (s : EngineState) : EngineState :=
  match inst.«instance» with
  | some h => cWasmerInstanceDestroy h s
  | none => s

/-- Instance.GetPointsUsed forwards to the engine with the raw instance
handle. -/
def Instance.GetPointsUsed (inst : Instance) (s : EngineState) : Nat :=
  cWasmerInstanceGetPointsUsed inst.«instance» s

/-- Instance.SetPointsUsed forwards to the engine with the raw instance
handle. -/
def Instance.SetPointsUsed (inst : Instance) (points : Nat) (s : EngineState) : EngineState :=
  cWasmerInstanceSetPointsUsed inst.«instance» points s

/-- lastMemoryExport picks the last export of memory kind of an export table,
in enumeration order, as the memory retrieval loop keeps only the last one. -/
def lastMemoryExport : List ExportEntry → Option ExportEntry
  | [] => none
  | e :: rest =>
    match lastMemoryExport rest with
    | some m => some m
    | none => if e.kind = ExportKind.memory then some e else none

lemma range'_cons_one (a n : Nat) : List.range' a (n + 1) = a :: List.range' (a + 1) n := rfl

lemma range'_append_one (a m n : Nat) :
    List.range' a m ++ List.range' (a + m) n = List.range' a (m + n) := by
  induction m generalizing a with
  | zero => simp
  | succ m ih =>
    rw [range'_cons_one, List.cons_append, Nat.add_comm m 1, ← Nat.add_assoc,
      Nat.add_assoc a 1 m, Nat.add_comm 1 m, ← Nat.add_assoc a m 1]
    rw [show a + m + 1 = (a + 1) + m by omega, ih (a + 1)]
    rw [show m + 1 + n = (m + n) + 1 by omega, range'_cons_one]

lemma generateWasmerImportsInner_spec (l : List (String × ImportFunction)) (s : EngineState) :
    (generateWasmerImportsInner l s).1.map (fun r => r.funcHandle) =
        List.range' s.nextHandle l.length ∧
      (generateWasmerImportsInner l s).2.2 =
        { s with
          nextHandle := s.nextHandle + l.length,
          liveImports := s.liveImports ++ List.range' s.nextHandle l.length } := by
  induction l generalizing s with
  | nil => simp [generateWasmerImportsInner]
  | cons p rest ih =>
    obtain ⟨n, f⟩ := p
    have step :
        cWasmerImportFuncNew f.cgoPointer f.wasmInputs f.wasmOutputs s =
          (s.nextHandle,
            { s with
              nextHandle := s.nextHandle + 1,
              liveImports := s.liveImports ++ [s.nextHandle] }) := rfl
    simp only [generateWasmerImportsInner, step, List.length_cons, List.map_cons]
    set s1 : EngineState :=
      { s with
        nextHandle := s.nextHandle + 1,
        liveImports := s.liveImports ++ [s.nextHandle] } with hs1
    obtain ⟨ih1, ih2⟩ := ih s1
    constructor
    · rw [ih1]
      rfl
    · rw [ih2, hs1]
      simp only [range'_cons_one, List.append_assoc, List.singleton_append]
      congr 1
      omega

lemma generateWasmerImportsOuter_spec
    (l : List (String × List (String × ImportFunction))) (s : EngineState) :
    (generateWasmerImportsOuter l s).1.map (fun r => r.funcHandle) =
        List.range' s.nextHandle (l.map (fun ns => ns.2.length)).sum ∧
      (generateWasmerImportsOuter l s).2.2 =
        { s with
          nextHandle := s.nextHandle + (l.map (fun ns => ns.2.length)).sum,
          liveImports :=
            s.liveImports ++ List.range' s.nextHandle (l.map (fun ns => ns.2.length)).sum } := by
  induction l generalizing s with
  | nil => simp [generateWasmerImportsOuter]
  | cons p rest ih =>
    obtain ⟨ns, fns⟩ := p
    simp only [generateWasmerImportsOuter, List.map_cons, List.sum_cons]
    obtain ⟨h1, h2⟩ := generateWasmerImportsInner_spec fns s
    set s1 := (generateWasmerImportsInner fns s).2.2 with hs1
    obtain ⟨ih1, ih2⟩ := ih s1
    have hnext : s1.nextHandle = s.nextHandle + fns.length := by rw [h2]
    have hlive : s1.liveImports = s.liveImports ++ List.range' s.nextHandle fns.length := by
      rw [h2]
    constructor
    · rw [List.map_append, h1, ih1, hnext, range'_append_one]
    · rw [ih2, hnext, hlive, h2]
      simp only [List.append_assoc, range'_append_one]
      congr 1
      omega

lemma generateWasmerImports_handles (imports : Imports) (s : EngineState) :
    (generateWasmerImports imports s).1.map (fun r => r.funcHandle) =
      List.range' s.nextHandle imports.Count := by
  have h := (generateWasmerImportsOuter_spec imports.imports s).1
  simpa [generateWasmerImports, Imports.Count] using h

lemma generateWasmerImports_state (imports : Imports) (s : EngineState) :
    (generateWasmerImports imports s).2.2.2 =
      { s with
        nextHandle := s.nextHandle + imports.Count,
        liveImports := s.liveImports ++ List.range' s.nextHandle imports.Count } := by
  have h := (generateWasmerImportsOuter_spec imports.imports s).2
  simpa [generateWasmerImports, Imports.Count] using h

lemma generateWasmerImports_lastError (imports : Imports) (s : EngineState) :
    (generateWasmerImports imports s).2.2.2.lastError = s.lastError := by
  rw [generateWasmerImports_state]

lemma generateWasmerImports_instantiateSucceeds (imports : Imports) (s : EngineState) :
    (generateWasmerImports imports s).2.2.2.instantiateSucceeds = s.instantiateSucceeds := by
  rw [generateWasmerImports_state]

/-- c3Engine is a fresh engine configuration for the C3 scenario. -/
def c3Engine : EngineState :=
  ⟨0, [], [], [], none, true, true, fun _ => [], fun _ _ _ => ([], true), 0, [], [], [], false⟩

/-- c3Function is a single registered import whose handle is not yet
materialized. -/
def c3Function : ImportFunction :=
  ⟨"env", 7, [ValueTag.I32, ValueTag.I32], [ValueTag.I32], none⟩

/-- c3Imports is a registry holding the single import `env.sum`. -/
def c3Imports : Imports := ⟨[("env", [("sum", c3Function)])]⟩

/-- c3First is the first materialization of the registry. -/
def c3First : List cWasmerImportT × Imports × Nat × EngineState :=
  generateWasmerImports c3Imports c3Engine

/-- c3Second materializes the already-materialized registry a second time. -/
def c3Second : List cWasmerImportT × Imports × Nat × EngineState :=
  generateWasmerImports c3First.2.1 c3First.2.2.2

/-- C3: counterexample — after the first materialization the ImportFunction
caches handle 0, yet materializing the same registry a second time emits the
freshly created handle 1 (and advances the engine's handle counter to 2)
instead of reusing the cached handle 0. -/
theorem C3_counterexample :
    c3First.1.map (fun r => r.funcHandle) = [0] ∧
      c3First.2.1 =
        ⟨[("env", [("sum",
          ⟨"env", 7, [ValueTag.I32, ValueTag.I32], [ValueTag.I32], some 0⟩)])]⟩ ∧
      c3Second.1.map (fun r => r.funcHandle) = [1] ∧
      c3Second.2.2.2.nextHandle = 2 := by
  refine ⟨rfl, rfl, rfl, rfl⟩

/-- C3 (amended): materialization creates a fresh foreign function handle for
every ImportFunction on every call — the emitted records carry exactly the
consecutively allocated fresh handles, and the engine's handle counter
advances by the registry's count — and it stores the new handle on the
ImportFunction, overwriting any cached one; so materializing the same
registry a second time creates new handles rather than reusing the cached
ones. -/
theorem C3_amended (imports : Imports) (s : EngineState) :
    (generateWasmerImports imports s).1.map (fun r => r.funcHandle) =
        List.range' s.nextHandle imports.Count ∧
      (generateWasmerImports imports s).2.2.2.nextHandle = s.nextHandle + imports.Count :=
  ⟨generateWasmerImports_handles imports s, by rw [generateWasmerImports_state]⟩

/-- c5Engine is an engine configuration whose instantiate primitive fails and
whose last-error slot holds a detail string. -/
def c5Engine : EngineState :=
  ⟨0, [], [], [], some "engine detail", false, true, fun _ => [], fun _ _ _ => ([], true),
    0, [], [], [], false⟩

/-- C5: when the engine's instantiate primitive fails,
`NewInstanceWithImports` returns an `InstanceError` whose message is the
fixed prefix "Failed to instantiate the module:" followed by a newline, four
spaces and the engine's last-error string, or the placeholder
"(unknown details)" when that string is unavailable. -/
theorem C5_instantiation_error_message (bytes : List Nat) (imports : Imports)
    (s : EngineState) (hfail : s.instantiateSucceeds = false) (hbytes : bytes ≠ []) :
    (NewInstanceWithImports bytes imports s).map (fun r => r.1.2) =
      some (some (GoError.instanceError ("Failed to instantiate the module:\n    " ++
        match s.lastError with
        | some lastError => lastError
        | none => "(unknown details)"))) := by
  cases bytes with
  | nil => exact absurd rfl hbytes
  | cons b bs =>
    have h1 := generateWasmerImports_instantiateSucceeds imports s
    have h2 := generateWasmerImports_lastError imports s
    simp only [NewInstanceWithImports, List.isEmpty_cons, Bool.false_eq_true, if_false,
      cWasmerInstantiate, h1, hfail, instantiationErrorMessage, GetLastError, h2]
    rfl

/-- C5 witness: at a failing engine with last error "engine detail", the
constructor reports exactly the prefixed detail. -/
theorem C5_instantiation_error_message_witness :
    (NewInstanceWithImports [0] NewImports c5Engine).map (fun r => r.1.2) =
      some (some (GoError.instanceError
        "Failed to instantiate the module:\n    engine detail")) := by
  have h := C5_instantiation_error_message [0] NewImports c5Engine rfl (by decide)
  simpa [c5Engine] using h

/-- c10Engine is an engine configuration whose instantiate primitive fails. -/
def c10Engine : EngineState :=
  ⟨0, [], [], [], none, false, true, fun _ => [], fun _ _ _ => ([], true), 0, [], [], [], false⟩

/-- c10Result is the outcome of a failing plain instantiation. -/
def c10Result : (Instance × Option GoError) × EngineState :=
  (NewInstanceWithImports [0] NewImports c10Engine).getD ((emptyInstance, none), c10Engine)

/-- C10: whenever the engine instantiate primitive fails, each of the three
constructors returns the empty instance (engine handle, imports, Exports and
Memory all nil) alongside the error. -/
theorem C10_engine_failure_empty_instance (bytes : List Nat) (imports : Imports)
    (io : ImportObject) (gasLimit : Nat) (opcode_costs : List Nat) (s : EngineState)
    (hfail : s.instantiateSucceeds = false) :
    (∀ r, NewInstanceWithImports bytes imports s = some r →
        r.1.1 = emptyInstance ∧ r.1.2.isSome = true) ∧
      (∀ r, NewMeteredInstanceWithImports bytes imports gasLimit opcode_costs s = some r →
        r.1.1 = emptyInstance ∧ r.1.2.isSome = true) ∧
      (∀ r, NewMeteredInstanceWithImportObject bytes io gasLimit opcode_costs s = some r →
        r.1.1 = emptyInstance ∧ r.1.2.isSome = true) := by
  have h1 := generateWasmerImports_instantiateSucceeds imports s
  refine ⟨?_, ?_, ?_⟩ <;> intro r hr <;> cases bytes with
  | nil => simp [NewInstanceWithImports, NewMeteredInstanceWithImports,
      NewMeteredInstanceWithImportObject] at hr
  | cons b bs =>
    simp only [NewInstanceWithImports, NewMeteredInstanceWithImports,
      NewMeteredInstanceWithImportObject, List.isEmpty_cons, Bool.false_eq_true, if_false,
      cWasmerInstantiate, cWasmerInstantiateWithMetering,
      cWasmerInstantiateWithMeteringAndImportObject, h1, hfail,
      Option.some_inj] at hr
    subst hr
    exact ⟨rfl, rfl⟩

/-- C10 witness: a failing plain instantiation at a concrete engine returns
the empty instance and an error. -/
theorem C10_engine_failure_empty_instance_witness :
    c10Result.1.1 = emptyInstance ∧ c10Result.1.2.isSome = true :=
  (C10_engine_failure_empty_instance [0] NewImports ⟨none, none⟩ 0 [] c10Engine rfl).1
    c10Result rfl

lemma getPoints_setPoints (h v : Nat) (pts : List (Nat × Nat)) :
    getPoints h (setPoints h v pts) = v := by
  induction pts with
  | nil => simp [setPoints, getPoints]
  | cons p rest ih =>
    obtain ⟨k, w⟩ := p
    by_cases hk : k = h
    · simp [setPoints, getPoints, hk]
    · simp [setPoints, getPoints, hk, ih]

/-- c8Engine is a running engine holding the live instance handle 3. -/
def c8Engine : EngineState :=
  ⟨5, [3], [], [], none, true, true, fun _ => [], fun _ _ _ => ([], true), 0, [], [], [], false⟩

/-- c8Instance is an instance wrapping the engine handle 3. -/
def c8Instance : Instance := ⟨some 3, none, some [], none⟩

/-- C8: setting the points used and immediately reading them back through the
instance returns the value set, for any instance holding a non-nil engine
handle and any value representable in 64 bits. -/
theorem C8_points_roundtrip (inst : Instance) (h : Nat) (s : EngineState) (v : Nat)
    (hh : inst.«instance» = some h) (hv : v < 2 ^ 64) :
    Instance.GetPointsUsed inst (Instance.SetPointsUsed inst v s) = v := by
  unfold Instance.GetPointsUsed Instance.SetPointsUsed
  rw [hh]
  simp only [cWasmerInstanceSetPointsUsed, cWasmerInstanceGetPointsUsed]
  rw [getPoints_setPoints]
  exact Nat.mod_eq_of_lt hv

/-- C8 witness: the round trip at the concrete instance handle 3 and value
42. -/
theorem C8_points_roundtrip_witness :
    Instance.GetPointsUsed c8Instance (Instance.SetPointsUsed c8Instance 42 c8Engine) = 42 :=
  C8_points_roundtrip c8Instance 3 c8Engine 42 rfl (by norm_num)

/-- C9: `NewInstance` returns exactly the result of `NewInstanceWithImports`
at a fresh empty registry, and materializing the empty registry is the
degenerate flattening with no records, zero count and an untouched engine
state, so instantiation with no imports is the empty-imports special case of
instantiation with imports. -/
theorem C9_newInstance_empty_imports (bytes : List Nat) (s : EngineState) :
    NewInstance bytes s = NewInstanceWithImports bytes NewImports s ∧
      generateWasmerImports NewImports s = ([], NewImports, 0, s) :=
  ⟨rfl, rfl⟩

/-- c6Wrapper is an exported function wrapper of declared input arity 2. -/
def c6Wrapper : ExportedFunctionWrapper := ⟨3, "add", [ValueTag.I32, ValueTag.I32], 2, 1⟩

/-- c6Engine is a running engine holding the live instance handle 3. -/
def c6Engine : EngineState :=
  ⟨4, [3], [], [], none, true, true, fun _ => [], fun _ _ _ => ([], true), 0, [], [], [], false⟩

/-- C6: calling an exported function wrapper with an argument count different
from the declared input arity returns the arity error naming the function
and both counts, and leaves the engine state untouched — in particular the
engine call primitive is never invoked (`callLog` is unchanged). -/
theorem C6_arity_mismatch (w : ExportedFunctionWrapper) (arguments : List HostValue)
    (s : EngineState) (h : arguments.length ≠ w.wasmFunctionInputsArity) :
    ExportedFunctionWrapper.call w arguments s =
      ((void, some (GoError.arityMismatch w.exportedFunctionName
        w.wasmFunctionInputsArity arguments.length)), s) := by
  unfold ExportedFunctionWrapper.call validateGivenArguments
  rw [if_neg h]

/-- C6 witness: the wrapper of arity 2, called with one argument, reports the
mismatch without touching the engine. -/
theorem C6_arity_mismatch_witness :
    ExportedFunctionWrapper.call c6Wrapper [HostValue.int 1] c6Engine =
      ((void, some (GoError.arityMismatch "add" 2 1)), c6Engine) := by
  have h := C6_arity_mismatch c6Wrapper [HostValue.int 1] c6Engine (by decide)
  simpa [c6Wrapper] using h

/-- c2Engine is a fresh engine configuration for the C2 scenario. -/
def c2Engine : EngineState :=
  ⟨0, [], [], [], none, true, true, fun _ => [], fun _ _ _ => ([], true), 0, [], [], [], false⟩

/-- c2Build instantiates a module with no imports; the engine allocates the
instance handle 0. -/
def c2Build : (Instance × Option GoError) × EngineState :=
  (NewInstance [0] c2Engine).getD ((emptyInstance, none), c2Engine)

/-- c2FirstClose closes the instance a first time. -/
def c2FirstClose : Instance × EngineState := Instance.Close c2Build.1.1 c2Build.2

/-- c2SecondClose closes the same instance again. -/
def c2SecondClose : Instance × EngineState := Instance.Close c2FirstClose.1 c2FirstClose.2

/-- C2: counterexample — `Close` does not null the instance handle, so calling
it a second time performs the engine release again on the already-destroyed
handle 0 (`destroyLog` records two destroys) and faults, refuting both "the
second Close performs no release" and "never faults". -/
theorem C2_counterexample :
    c2Build.1.2 = none ∧ c2FirstClose.2.faulted = false ∧
      c2SecondClose.2.destroyLog = [0, 0] ∧ c2SecondClose.2.faulted = true := by
  refine ⟨rfl, rfl, rfl, rfl⟩

/-- C2 (amended): `Close` on an Instance whose instance handle and imports are
already null never faults and performs no release at all — it is the
identity on the engine state; but `Close` does not null the handles it
releases, so a second `Close` after a first one that destroyed a live handle
repeats the engine release instead of being a no-op. -/
theorem C2_amended (inst : Instance) (s : EngineState)
    (h1 : inst.«instance» = none) (h2 : inst.imports = none) :
    Instance.Close inst s = (inst, s) := by
  cases inst with
  | mk i im e m =>
    simp only at h1 h2
    subst h1
    subst h2
    rfl

/-- C2 witness: closing the all-nil empty instance leaves the instance and
the engine untouched. -/
theorem C2_amended_witness :
    Instance.Close emptyInstance c2Engine = (emptyInstance, c2Engine) :=
  C2_amended emptyInstance c2Engine rfl rfl

lemma lastMemoryExport_isSome (l : List ExportEntry) :
    (lastMemoryExport l).isSome = l.any (fun e => decide (e.kind = ExportKind.memory)) := by
  induction l with
  | nil => rfl
  | cons e rest ih =>
    simp only [lastMemoryExport, List.any_cons]
    rcases hl : lastMemoryExport rest with _ | m
    · rw [hl] at ih
      by_cases hk : e.kind = ExportKind.memory
      · simp [hk, ← ih]
      · simp [hk, ← ih]
    · rw [hl] at ih
      simp [← ih]

lemma retrieveExportedMemoryLoop_ok (l : List ExportEntry) :
    ∀ (i : Nat) (memory : Memory) (hasMemory : Bool) (s : EngineState)
      (rm : Memory) (rb : Bool) (s' : EngineState),
      retrieveExportedMemoryLoop l i memory hasMemory s = ((rm, rb, none), s') →
      rm = (match lastMemoryExport l with
            | some e => newMemory e.memHandle
            | none => memory) ∧
        rb = (hasMemory || l.any (fun e => decide (e.kind = ExportKind.memory))) := by
  induction l with
  | nil =>
    intro i memory hasMemory s rm rb s' h
    simp only [retrieveExportedMemoryLoop, Prod.mk.injEq] at h
    obtain ⟨⟨hm, hb, _⟩, _⟩ := h
    simp [lastMemoryExport, ← hm, ← hb]
  | cons e rest ih =>
    intro i memory hasMemory s rm rb s' h
    simp only [retrieveExportedMemoryLoop] at h
    by_cases hk : e.kind = ExportKind.memory
    · rw [if_pos hk] at h
      by_cases hok : e.memOk = true
      · rw [hok] at h
        simp only [if_true] at h
        obtain ⟨h1, h2⟩ := ih _ _ _ _ _ _ _ h
        refine ⟨?_, ?_⟩
        · rw [h1]
          rcases hl : lastMemoryExport rest with _ | m <;>
            simp [lastMemoryExport, hl, hk]
        · rw [h2]
          simp [List.any_cons, hk]
      · simp only [Bool.not_eq_true] at hok
        rw [hok] at h
        simp only [Bool.false_eq_true, if_false, Prod.mk.injEq] at h
        exact absurd h.1.2.2 (by simp)
    · rw [if_neg hk] at h
      obtain ⟨h1, h2⟩ := ih _ _ _ _ _ _ _ h
      refine ⟨?_, ?_⟩
      · rw [h1]
        rcases hl : lastMemoryExport rest with _ | m <;>
          simp [lastMemoryExport, hl, hk]
      · rw [h2]
        simp [List.any_cons, hk]

lemma newInstanceWithImports_ok_fields (c_instance : Nat) (imports : Option Imports)
    (s : EngineState) (inst : Instance) (s' : EngineState)
    (h : newInstanceWithImports c_instance imports s = ((inst, none), s')) :
    inst.«instance» = some c_instance ∧ inst.imports = imports ∧
      inst.Memory =
        (lastMemoryExport (s.exportsOf c_instance)).map (fun e => newMemory e.memHandle) := by
  unfold newInstanceWithImports at h
  simp only [] at h
  rcases hfn : retrieveExportedFunctions c_instance (cWasmerInstanceExports c_instance s).1
      (cWasmerInstanceExports c_instance s).2 with ⟨⟨exportsOpt, errOpt⟩, s2⟩
  rw [hfn] at h
  cases errOpt with
  | some err => simp at h
  | none =>
    dsimp only at h
    rcases hmem : retrieveExportedMemory (cWasmerInstanceExports c_instance s).1 s2
      with ⟨⟨memory, hasMemory, errOpt2⟩, s3⟩
    rw [hmem] at h
    cases errOpt2 with
    | some err => simp at h
    | none =>
      dsimp only at h
      obtain ⟨hm, hb⟩ := retrieveExportedMemoryLoop_ok _ _ _ _ _ _ _ _ hmem
      have htable : (cWasmerInstanceExports c_instance s).1 = s.exportsOf c_instance := rfl
      rw [htable] at hm hb
      by_cases hmemFlag : hasMemory = false
      · rw [if_pos hmemFlag] at h
        simp only [Prod.mk.injEq] at h
        obtain ⟨⟨hinst, _⟩, _⟩ := h
        subst hinst
        refine ⟨rfl, rfl, ?_⟩
        have hany : (s.exportsOf c_instance).any
            (fun e => decide (e.kind = ExportKind.memory)) = false := by
          rw [hmemFlag] at hb
          simpa using hb.symm
        have : lastMemoryExport (s.exportsOf c_instance) = none := by
          have := lastMemoryExport_isSome (s.exportsOf c_instance)
          rw [hany] at this
          exact Option.not_isSome_iff_eq_none.mp (by simp [this])
        simp [this]
      · rw [if_neg hmemFlag] at h
        simp only [Prod.mk.injEq] at h
        obtain ⟨⟨hinst, _⟩, _⟩ := h
        subst hinst
        refine ⟨rfl, rfl, ?_⟩
        have htrue : hasMemory = true := by
          cases hasMemory with
          | false => exact absurd rfl hmemFlag
          | true => rfl
        have hany : (s.exportsOf c_instance).any
            (fun e => decide (e.kind = ExportKind.memory)) = true := by
          rw [htrue] at hb
          cases hax : (s.exportsOf c_instance).any (fun e => decide (e.kind = ExportKind.memory)) with
          | false =>
            rw [hax] at hb
            simp at hb
          | true => rfl
        have hsome : (lastMemoryExport (s.exportsOf c_instance)).isSome = true := by
          rw [lastMemoryExport_isSome, hany]
        rcases hl : lastMemoryExport (s.exportsOf c_instance) with _ | m
        · rw [hl] at hsome
          simp at hsome
        · rw [hl] at hm
          simp only at hm
          simp [hm]

lemma cWasmerInstanceDestroy_liveImports (h : Nat) (s : EngineState) :
    (cWasmerInstanceDestroy h s).liveImports = s.liveImports := by
  unfold cWasmerInstanceDestroy
  split <;> rfl

lemma Instance.Clean_liveImports (inst : Instance) (s : EngineState) :
    (Instance.Clean inst s).liveImports = s.liveImports := by
  unfold Instance.Clean
  cases inst.«instance» with
  | none => rfl
  | some h => exact cWasmerInstanceDestroy_liveImports h s

/-- c1Engine is a fresh engine configuration for the C1 scenario. -/
def c1Engine : EngineState :=
  ⟨0, [], [], [], none, true, true, fun _ => [], fun _ _ _ => ([], true), 0, [], [], [], false⟩

/-- c1Function is a single registered import, handle not yet materialized. -/
def c1Function : ImportFunction := ⟨"env", 9, [ValueTag.I32], [ValueTag.I32], none⟩

/-- c1Imports is a registry holding the single import `env.getValue`. -/
def c1Imports : Imports := ⟨[("env", [("getValue", c1Function)])]⟩

/-- c1ImportObjectResult builds a shared ImportObject; the import function
handle 0 and the import-object handle 1 are allocated. -/
def c1ImportObjectResult : (ImportObject × Option GoError) × EngineState :=
  NewImportObject c1Imports c1Engine

/-- c1BuildResult instantiates a module from the shared ImportObject; the
engine allocates the instance handle 2. -/
def c1BuildResult : (Instance × Option GoError) × EngineState :=
  (NewMeteredInstanceWithImportObject [0] c1ImportObjectResult.1.1 100 []
    c1ImportObjectResult.2).getD ((emptyInstance, none), c1Engine)

/-- c1CloseResult closes the instance built from the shared ImportObject. -/
def c1CloseResult : Instance × EngineState :=
  Instance.Close c1BuildResult.1.1 c1BuildResult.2

/-- C1: counterexample — the Instance built by
`NewMeteredInstanceWithImportObject` stores the shared ImportObject's imports,
so its `Close` destroys the ImportObject's import function handle 0: the
handle is live before the close and released after it, refuting "Close leaves
the ImportObject's import handles intact". -/
theorem C1_counterexample :
    c1ImportObjectResult.1.2 = none ∧ c1BuildResult.1.2 = none ∧
      c1BuildResult.2.liveImports = [0] ∧ c1CloseResult.2.liveImports = [] := by
  refine ⟨rfl, rfl, rfl, rfl⟩

/-- C1 (amended): an Instance built by `NewMeteredInstanceWithImportObject`
stores the shared ImportObject's own imports, so its `Close` releases those
handles; it is `Clean` that destroys only the Instance's own engine
handle and leaves every import-function handle of the engine intact. -/
theorem C1_amended (bytes : List Nat) (io : ImportObject) (gasLimit : Nat)
    (opcode_costs : List Nat) (s : EngineState) (inst : Instance) (err : Option GoError)
    (s' t : EngineState)
    (hbuild : NewMeteredInstanceWithImportObject bytes io gasLimit opcode_costs s =
      some ((inst, err), s'))
    (herr : err = none) :
    inst.imports = io.imports ∧ (Instance.Clean inst t).liveImports = t.liveImports := by
  subst herr
  refine ⟨?_, Instance.Clean_liveImports inst t⟩
  cases bytes with
  | nil => simp [NewMeteredInstanceWithImportObject] at hbuild
  | cons b bs =>
    simp only [NewMeteredInstanceWithImportObject, List.isEmpty_cons, Bool.false_eq_true,
      if_false, cWasmerInstantiateWithMeteringAndImportObject] at hbuild
    by_cases hs : s.instantiateSucceeds = true
    · rw [if_pos hs] at hbuild
      simp only [Option.some_inj] at hbuild
      have hres :
          newInstanceWithImports s.nextHandle io.imports
            { s with
              nextHandle := s.nextHandle + 1,
              liveInstances := s.liveInstances ++ [s.nextHandle] } = ((inst, none), s') := by
        rcases hres' : newInstanceWithImports s.nextHandle io.imports
          { s with
            nextHandle := s.nextHandle + 1,
            liveInstances := s.liveInstances ++ [s.nextHandle] } with ⟨⟨inst0, err0⟩, s0⟩
        rw [hres'] at hbuild
        exact hres' ▸ hbuild
      exact (newInstanceWithImports_ok_fields _ _ _ _ _ hres).2.1
    · simp only [Bool.not_eq_true] at hs
      rw [hs] at hbuild
      simp at hbuild

/-- C1 witness: the amended statement at the concrete scenario — the built
instance carries the ImportObject's imports and its `Clean` leaves the
live import handles of a concrete engine unchanged. -/
theorem C1_amended_witness :
    c1BuildResult.1.1.imports = c1ImportObjectResult.1.1.imports ∧
      (Instance.Clean c1BuildResult.1.1 c1BuildResult.2).liveImports =
        c1BuildResult.2.liveImports :=
  C1_amended [0] c1ImportObjectResult.1.1 100 [] c1ImportObjectResult.2 c1BuildResult.1.1
    c1BuildResult.1.2 c1BuildResult.2 c1BuildResult.2 rfl rfl

/-- c7MemA is the first of two memory exports of the C7 scenario. -/
def c7MemA : ExportEntry := ⟨ExportKind.memory, "memA", true, 11, true, [], true, 0⟩

/-- c7MemB is the second of two memory exports of the C7 scenario. -/
def c7MemB : ExportEntry := ⟨ExportKind.memory, "memB", true, 12, true, [], true, 0⟩

/-- c7Engine is a running engine whose instance 0 exports two memories. -/
def c7Engine : EngineState :=
  ⟨1, [0], [], [], none, true, true, fun _ => [c7MemA, c7MemB], fun _ _ _ => ([], true),
    0, [], [], [], false⟩

/-- c7Run is the post-instantiation setup over the two-memory export table. -/
def c7Run : (Instance × Option GoError) × EngineState :=
  newInstanceWithImports 0 none c7Engine

/-- C7: for every successfully constructed Instance, `HasMemory` is true
exactly when the export table contains at least one memory export, and the
`Memory` field wraps exactly the last memory export in enumeration order. -/
theorem C7_memory (c_instance : Nat) (imports : Option Imports) (s : EngineState)
    (inst : Instance) (s' : EngineState)
    (h : newInstanceWithImports c_instance imports s = ((inst, none), s')) :
    inst.HasMemory =
        (s.exportsOf c_instance).any (fun e => decide (e.kind = ExportKind.memory)) ∧
      inst.Memory =
        (lastMemoryExport (s.exportsOf c_instance)).map (fun e => newMemory e.memHandle) := by
  obtain ⟨_, _, hm⟩ := newInstanceWithImports_ok_fields _ _ _ _ _ h
  refine ⟨?_, hm⟩
  rw [Instance.HasMemory, hm, ← lastMemoryExport_isSome]
  rcases lastMemoryExport (s.exportsOf c_instance) with _ | m <;> rfl

/-- C7 witness: with two memory exports, the instance has a memory and it
wraps the second (last) one, with handle 12. -/
theorem C7_memory_witness :
    c7Run.1.1.HasMemory = true ∧ c7Run.1.1.Memory = some (newMemory 12) := by
  have h := C7_memory 0 none c7Engine c7Run.1.1 c7Run.2 rfl
  exact ⟨h.1.trans (by rfl), h.2.trans (by rfl)⟩

lemma log_append_collapse (L : List Nat) (i n : Nat) :
    (L ++ [i]) ++ List.range' (i + 1) n = L ++ List.range' i (n + 1) := by
  rw [List.append_assoc, List.singleton_append, range'_cons_one]

lemma retrieveExportedMemoryLoop_wf (l : List ExportEntry) :
    ∀ (i : Nat) (memory : Memory) (hasMemory : Bool) (s : EngineState),
      (∀ e ∈ l, e.kind = ExportKind.memory → e.memOk = true) →
      retrieveExportedMemoryLoop l i memory hasMemory s =
        (((match lastMemoryExport l with
            | some e => newMemory e.memHandle
            | none => memory),
          hasMemory || l.any (fun e => decide (e.kind = ExportKind.memory)), none),
          { s with exportsGetLog := s.exportsGetLog ++ List.range' i l.length }) := by
  induction l with
  | nil =>
    intro i memory hasMemory s hwf
    simp [retrieveExportedMemoryLoop, lastMemoryExport]
  | cons e rest ih =>
    intro i memory hasMemory s hwf
    have hrest : ∀ x ∈ rest, x.kind = ExportKind.memory → x.memOk = true :=
      fun x hx => hwf x (List.mem_cons_of_mem _ hx)
    simp only [retrieveExportedMemoryLoop]
    by_cases hk : e.kind = ExportKind.memory
    · have hok : e.memOk = true := hwf e (List.mem_cons_self _ _) hk
      rw [if_pos hk, hok]
      simp only [if_true]
      rw [ih (i + 1) (newMemory e.memHandle) true (logExportsGet i s) hrest]
      have hstate :
          ({ logExportsGet i s with
            exportsGetLog := (logExportsGet i s).exportsGetLog ++
              List.range' (i + 1) rest.length } : EngineState) =
          { s with exportsGetLog := s.exportsGetLog ++ List.range' i (rest.length + 1) } := by
        simp only [logExportsGet]
        rw [log_append_collapse]
      rw [hstate]
      rcases hl : lastMemoryExport rest with _ | m <;>
        simp [lastMemoryExport, hl, hk, List.length_cons]
    · rw [if_neg hk]
      rw [ih (i + 1) memory hasMemory (logExportsGet i s) hrest]
      have hstate :
          ({ logExportsGet i s with
            exportsGetLog := (logExportsGet i s).exportsGetLog ++
              List.range' (i + 1) rest.length } : EngineState) =
          { s with exportsGetLog := s.exportsGetLog ++ List.range' i (rest.length + 1) } := by
        simp only [logExportsGet]
        rw [log_append_collapse]
      rw [hstate]
      rcases hl : lastMemoryExport rest with _ | m <;>
        simp [lastMemoryExport, hl, hk, List.length_cons]

lemma retrieveExportedFunctionsLoop_wf (c_instance : Nat) (l : List ExportEntry) :
    ∀ (i : Nat) (acc : List (String × ExportedFunctionWrapper)) (s : EngineState),
      (∀ e ∈ l, e.kind = ExportKind.function → e.sigOk = true ∧ e.outOk = true) →
      ∃ m, retrieveExportedFunctionsLoop c_instance l i acc s =
        ((some m, none),
          { s with exportsGetLog := s.exportsGetLog ++ List.range' i l.length }) := by
  induction l with
  | nil =>
    intro i acc s hwf
    exact ⟨acc, by simp [retrieveExportedFunctionsLoop]⟩
  | cons e rest ih =>
    intro i acc s hwf
    have hrest : ∀ x ∈ rest, x.kind = ExportKind.function → x.sigOk = true ∧ x.outOk = true :=
      fun x hx => hwf x (List.mem_cons_of_mem _ hx)
    simp only [retrieveExportedFunctionsLoop]
    have hstate :
        ({ logExportsGet i s with
          exportsGetLog := (logExportsGet i s).exportsGetLog ++
            List.range' (i + 1) rest.length } : EngineState) =
        { s with exportsGetLog := s.exportsGetLog ++ List.range' i (rest.length + 1) } := by
      simp only [logExportsGet]
      rw [log_append_collapse]
    by_cases hk : e.kind = ExportKind.function
    · obtain ⟨hsig, hout⟩ := hwf e (List.mem_cons_self _ _) hk
      rw [if_pos hk]
      have hcreate : createExportedFunctionWrapper c_instance e e.name =
          Except.ok ⟨c_instance, e.name, e.inputSig, e.inputSig.length, e.outputArity⟩ := by
        unfold createExportedFunctionWrapper getExportedFunctionSignature
          getExportedFunctionOutputArity
        rw [hsig, hout]
        simp
      rw [hcreate]
      obtain ⟨m, hm⟩ := ih (i + 1)
        (setExport acc e.name ⟨c_instance, e.name, e.inputSig, e.inputSig.length, e.outputArity⟩)
        (logExportsGet i s) hrest
      refine ⟨m, ?_⟩
      dsimp only
      rw [hm, hstate]
      rfl
    · rw [if_neg hk]
      obtain ⟨m, hm⟩ := ih (i + 1) acc (logExportsGet i s) hrest
      refine ⟨m, ?_⟩
      rw [hm, hstate]
      rfl

/-- c4Entry is a single well-formed function export. -/
def c4Entry : ExportEntry := ⟨ExportKind.function, "main", false, 0, true, [], true, 1⟩

/-- c4Engine is a running engine whose instance 0 exports one function. -/
def c4Engine : EngineState :=
  ⟨1, [0], [], [], none, true, true, fun _ => [c4Entry], fun _ _ _ => ([], true),
    0, [], [], [], false⟩

/-- c4Run is the post-instantiation setup over the one-entry export table. -/
def c4Run : (Instance × Option GoError) × EngineState :=
  newInstanceWithImports 0 none c4Engine

/-- C4: counterexample — post-instantiation setup over an export table with a
single entry fetches that entry twice (the get log is [0, 0]), because the
table is walked once by the function retrieval and once more by the memory
retrieval; a single in-order walk would fetch each index once, giving the log
[0]. -/
theorem C4_counterexample :
    c4Run.1.2 = none ∧ c4Run.2.exportsGetLog = [0, 0] ∧
      c4Run.2.exportsGetLog ≠ List.range (c4Engine.exportsOf 0).length := by
  refine ⟨rfl, rfl, by decide⟩

/-- C4 (amended): during post-instantiation setup over a well-formed export
table, the table is retrieved from the engine exactly once but walked exactly
twice — once by the exported-function retrieval that populates the callable
map and once by the memory retrieval — each walk visiting the entries in the
engine's reported order, and the setup succeeds. -/
theorem C4_amended (c_instance : Nat) (imports : Option Imports) (s : EngineState)
    (hwf : ∀ e ∈ s.exportsOf c_instance,
      (e.kind = ExportKind.function → e.sigOk = true ∧ e.outOk = true) ∧
        (e.kind = ExportKind.memory → e.memOk = true)) :
    (newInstanceWithImports c_instance imports s).2.exportsRetrieveCount =
        s.exportsRetrieveCount + 1 ∧
      (newInstanceWithImports c_instance imports s).2.exportsGetLog =
        s.exportsGetLog ++ List.range (s.exportsOf c_instance).length ++
          List.range (s.exportsOf c_instance).length ∧
      (newInstanceWithImports c_instance imports s).1.2 = none := by
  obtain ⟨m, hm⟩ := retrieveExportedFunctionsLoop_wf c_instance (s.exportsOf c_instance) 0 []
    { s with exportsRetrieveCount := s.exportsRetrieveCount + 1 }
    (fun e he => (hwf e he).1)
  have hfn : retrieveExportedFunctions c_instance (cWasmerInstanceExports c_instance s).1
      (cWasmerInstanceExports c_instance s).2 =
      ((some m, none),
        { s with
          exportsRetrieveCount := s.exportsRetrieveCount + 1,
          exportsGetLog :=
            s.exportsGetLog ++ List.range' 0 (s.exportsOf c_instance).length }) := hm
  have hmem := retrieveExportedMemoryLoop_wf (s.exportsOf c_instance) 0 ⟨none⟩ false
    { s with
      exportsRetrieveCount := s.exportsRetrieveCount + 1,
      exportsGetLog := s.exportsGetLog ++ List.range' 0 (s.exportsOf c_instance).length }
    (fun e he => (hwf e he).2)
  have hmem2 : retrieveExportedMemory (cWasmerInstanceExports c_instance s).1
      { s with
        exportsRetrieveCount := s.exportsRetrieveCount + 1,
        exportsGetLog := s.exportsGetLog ++ List.range' 0 (s.exportsOf c_instance).length } =
      (((match lastMemoryExport (s.exportsOf c_instance) with
          | some e => newMemory e.memHandle
          | none => (⟨none⟩ : Memory)),
        false || (s.exportsOf c_instance).any (fun e => decide (e.kind = ExportKind.memory)),
        none),
        { s with
          exportsRetrieveCount := s.exportsRetrieveCount + 1,
          exportsGetLog :=
            (s.exportsGetLog ++ List.range' 0 (s.exportsOf c_instance).length) ++
              List.range' 0 (s.exportsOf c_instance).length }) := hmem
  unfold newInstanceWithImports
  simp only []
  rw [hfn]
  dsimp only
  rw [hmem2]
  dsimp only
  by_cases hb :
      (false || (s.exportsOf c_instance).any (fun e => decide (e.kind = ExportKind.memory)))
        = false
  · rw [if_pos hb]
    refine ⟨rfl, ?_, rfl⟩
    simp [List.range_eq_range', List.append_assoc]
  · rw [if_neg hb]
    refine ⟨rfl, ?_, rfl⟩
    simp [List.range_eq_range', List.append_assoc]

/-- C4 witness: the amended statement at the concrete one-function export
table — the table is retrieved once and each of the two walks logs the single
index. -/
theorem C4_amended_witness :
    (newInstanceWithImports 0 none c4Engine).2.exportsRetrieveCount =
        c4Engine.exportsRetrieveCount + 1 ∧
      (newInstanceWithImports 0 none c4Engine).2.exportsGetLog =
        c4Engine.exportsGetLog ++ List.range (c4Engine.exportsOf 0).length ++
          List.range (c4Engine.exportsOf 0).length ∧
      (newInstanceWithImports 0 none c4Engine).1.2 = none :=
  C4_amended 0 none c4Engine (by decide)

end Wasmer
